import Mathlib

/-!
Verification of the Personalized GitHub Radar analysis pipeline.

The definitions below are a shallow embedding of the repository's
JavaScript sources:

* `scripts/helpers/analyzer/smart-analyzer.js` (`SmartAnalyzer`):
  keyword scoring (`findKeywordMatches`, `basicAnalysis`) and quota-bounded
  AI summarisation (`analyzeSingleRepo`, `analyzeBatch`);
* `scripts/helpers/analyzer/language-filter.js` (`LanguageFilter`);
* `scripts/helpers/analyzer/content-enricher.js` (`ContentEnricher`);
* `scripts/radar-standalone.js` (`StandaloneRadar.analyzeRepos`) and
  `scripts/radar.js` (`PersonalizedRadar.analyzeRepos`): the two batch
  orchestrators.

External collaborators (GitHub fetches, the OpenAI call) are passed in as
function parameters returning `Except`, mirroring promise rejection.
JavaScript exceptions are modelled by `Except String`; a thrown error is
`Except.error`, `try`/`catch` is a `match` on the result.
-/

namespace Radar

instance {ε α : Type} [DecidableEq ε] [DecidableEq α] : DecidableEq (Except ε α) := fun x y =>
  match x, y with
  | Except.ok a, Except.ok b =>
    if h : a = b then isTrue (by rw [h]) else isFalse (fun hh => h (Except.ok.inj hh))
  | Except.error a, Except.error b =>
    if h : a = b then isTrue (by rw [h]) else isFalse (fun hh => h (Except.error.inj hh))
  | Except.ok _, Except.error _ => isFalse (fun hh => Except.noConfusion hh)
  | Except.error _, Except.ok _ => isFalse (fun hh => Except.noConfusion hh)

/-! ### Strings and JavaScript primitives -/

/-- `String.toLowerCase()` as used on ASCII configuration keywords and
repository text (`Char.toLower` lowers exactly the ASCII letters). -/
def toLowerStr (s : String) : String := (s.toList.map Char.toLower).asString

/-- A JavaScript word character, the `\w` / `\b` class `[A-Za-z0-9_]`. -/
def isWordChar (c : Char) : Bool := c.isAlpha || c.isDigit || c == '_'

def optIsWord : Option Char → Bool
  | some c => isWordChar c
  | none => false

/-- The ECMAScript `\b` assertion between two (possibly absent) characters:
the position is a word boundary iff exactly one side is a word character. -/
def wordBoundary (a b : Option Char) : Bool := optIsWord a != optIsWord b

/-- Non-overlapping left-to-right occurrence count of a nonempty literal
pattern, the behaviour of `text.match(new RegExp(pat, 'g')).length` for a
pattern without metacharacters: at each position the engine either matches
(and resumes after the match: the `skip` counter walks over the remaining
matched characters, modelling `lastIndex`) or advances one character. -/
def countSubGo (pat : List Char) : Nat → List Char → Nat
  | _, [] => 0
  | 0, c :: rest =>
    if pat.isPrefixOf (c :: rest) then 1 + countSubGo pat (pat.length - 1) rest
    else countSubGo pat 0 rest
  | skip + 1, _ :: rest => countSubGo pat skip rest

/-- Substring match count: `(lowerText.match(partialRegex) || []).length`
for a literal keyword. The empty pattern matches once at every position
(JavaScript returns `text.length + 1` empty matches). -/
def countSub (pat : List Char) (text : List Char) : Nat :=
  if pat = [] then text.length + 1 else countSubGo pat 0 text

/-- Number of word-boundary positions in the text, given the character
preceding the current position; models `\b\b` (the pattern built from the
empty keyword). -/
def boundaryPositions : Option Char → List Char → Nat
  | prev, [] => if wordBoundary prev none then 1 else 0
  | prev, c :: rest =>
    (if wordBoundary prev (some c) then 1 else 0) + boundaryPositions (some c) rest

/-- Non-overlapping count of `\b pat \b` matches for a nonempty literal
pattern: a match needs the literal occurrence plus a word boundary on each
side; on a match the scan resumes after it (the `skip` counter walks over
the remaining matched characters), otherwise it advances one character.
`prev` is the character before the current position. -/
def countWordGo (pat : List Char) : Nat → Option Char → List Char → Nat
  | _, _, [] => 0
  | 0, prev, c :: rest =>
    if pat.isPrefixOf (c :: rest) && wordBoundary prev (some c) &&
        wordBoundary pat.getLast? (List.drop (pat.length - 1) rest).head? then
      1 + countWordGo pat (pat.length - 1) (some c) rest
    else
      countWordGo pat 0 (some c) rest
  | skip + 1, _, c :: rest => countWordGo pat skip (some c) rest

/-- Whole-word match count: `(lowerText.match(exactRegex) || []).length`
where `exactRegex = new RegExp('\\b' + kw + '\\b', 'gi')`, for a literal
keyword. -/
def countWord (pat : List Char) (text : List Char) : Nat :=
  if pat = [] then boundaryPositions none text else countWordGo pat 0 none text

/-! ### Model of `new RegExp` compilation

`findKeywordMatches` interpolates the configured keyword into the pattern
unescaped.  `regexCompiles` models whether ECMAScript accepts the pattern
`\b<kw>\b`: a quantifier (`+`, `*`, `?`) must follow a quantifiable atom,
`?` may additionally follow one quantifier (lazy marker), `|` starts a new
alternative, and ordinary characters (including `.`) are atoms.  The model
is exact on keywords over this fragment; the remaining metacharacters
(`\\ ( ) [ ] { } ^ $`), whose grouping/class/brace syntax is not modelled,
are rejected conservatively and are outside every theorem's scope. -/

inductive RScan
  | noAtom
  | atom
  | afterQuant
  | afterLazy
deriving DecidableEq

def rscanStep (st : RScan) (c : Char) : Option RScan :=
    if c = '+' ∨ c = '*' then
      match st with
      | RScan.atom => some RScan.afterQuant
      | RScan.noAtom => none
      | RScan.afterQuant => none
      | RScan.afterLazy => none
    else if c = '?' then
      match st with
      | RScan.atom => some RScan.afterQuant
      | RScan.afterQuant => some RScan.afterLazy
      | RScan.noAtom => none
      | RScan.afterLazy => none
    else if c = '|' then some RScan.noAtom
    else if c = '\\' ∨ c = '(' ∨ c = ')' ∨ c = '[' ∨ c = ']' ∨
            c = '{' ∨ c = '}' ∨ c = '^' ∨ c = '$' then none
    else some RScan.atom

def rscanGo : RScan → List Char → Bool
  | _, [] => true
  | st, c :: cs =>
    match rscanStep st c with
    | some st2 => rscanGo st2 cs
    | none => false

/-- Whether `new RegExp('\\b' + kw + '\\b', 'gi')` succeeds.  The scan
starts in `noAtom` state because the pattern opens with the `\b`
assertion, which is not quantifiable. -/
def regexCompiles (kw : String) : Bool := rscanGo RScan.noAtom kw.toList

/-- An ECMAScript regular-expression metacharacter. -/
def regexMetaChar (c : Char) : Bool :=
  decide (c = '\\' ∨ c = '^' ∨ c = '$' ∨ c = '.' ∨ c = '|' ∨ c = '?' ∨
          c = '*' ∨ c = '+' ∨ c = '(' ∨ c = ')' ∨ c = '[' ∨ c = ']' ∨
          c = '{' ∨ c = '}')

/-- A keyword containing no regex metacharacter: interpolating it into a
pattern denotes the literal string itself. -/
def regexLiteralStr (s : String) : Bool := s.toList.all (fun c => !regexMetaChar c)

/-! ### `SmartAnalyzer.findKeywordMatches` -/

structure FKMResult where
  score : Nat
  keywords : List String
deriving DecidableEq, Repr

/-- The per-keyword loop body of `findKeywordMatches`
(smart-analyzer.js:186-204): lowercase the keyword, build the two regexes
(compilation failure throws), count whole-word and substring matches, take
the larger count, and record the keyword (original casing) when positive. -/
def fkmLoop (lowerText : List Char) : List String → Except String FKMResult
  | [] => Except.ok ⟨0, []⟩
  | kw :: rest =>
    if regexCompiles (toLowerStr kw) then
      match fkmLoop lowerText rest with
      | Except.ok r =>
        Except.ok
          ⟨max (countWord (toLowerStr kw).toList lowerText)
               (countSub (toLowerStr kw).toList lowerText) + r.score,
           (if 0 < max (countWord (toLowerStr kw).toList lowerText)
                       (countSub (toLowerStr kw).toList lowerText)
            then [kw] else []) ++ r.keywords⟩
      | Except.error e => Except.error e
    else
      Except.error "SyntaxError: Invalid regular expression"

/-- `SmartAnalyzer.findKeywordMatches(text)` (smart-analyzer.js:177-207):
empty text or an empty keyword list short-circuits to a zero result before
any regex is built; otherwise the text is lowercased once and each
configured keyword is counted. -/
def findKeywordMatches (kws : List String) (text : String) : Except String FKMResult :=
  if text = "" ∨ kws = [] then Except.ok ⟨0, []⟩
  else fkmLoop (toLowerStr text).toList kws

/-! ### Data model

A repository record as produced by the trending extractor and enriched by
`ContentEnricher`.  Optional fields model JavaScript properties that may be
absent (`undefined`); enrichment layers its added fields onto a copy via
object spread, so one record type with optional enrichment fields is used
throughout. -/

structure Repo where
  name : Option String := none
  url : Option String := none
  description : Option String := none
  language : Option String := none
  starsAdded : Option Nat := none
  stars : Option Nat := none
  forks : Option Nat := none
  readmeContent : Option String := none
  topics : Option (List String) := none
  createdAt : Option String := none
  updatedAt : Option String := none
  forksCount : Option Nat := none
  starsCount : Option Nat := none
  watchersCount : Option Nat := none
  openIssuesCount : Option Nat := none
deriving DecidableEq, Repr

/-- Output of `SmartAnalyzer.basicAnalysis`: `{...repo, relevanceScore,
matchedKeywords, aiSummary}`. -/
structure Analyzed where
  repo : Repo
  relevanceScore : Nat
  matchedKeywords : List String
  aiSummary : Option String
deriving DecidableEq, Repr

/-- JavaScript string truthiness for an optional field: absent and `''`
are falsy (`if (repo.description)` guards). -/
def truthyStr : Option String → Option String
  | some s => if s = "" then none else some s
  | none => none

/-- `Array.prototype.join(' ')`. -/
def joinSpace : List String → String
  | [] => ""
  | [s] => s
  | s :: rest => s ++ " " ++ joinSpace rest

/-- First-occurrence deduplication, `[...new Set(list)]`:  a JavaScript
`Set` iterates in insertion order and ignores re-insertions. -/
def dedupFirstAux (seen : List String) : List String → List String
  | [] => []
  | x :: xs =>
    if x ∈ seen then dedupFirstAux seen xs
    else x :: dedupFirstAux (x :: seen) xs

def dedupFirst (l : List String) : List String := dedupFirstAux [] l

/-- One scored field of `basicAnalysis`: the field's keyword search runs
only when the field is truthy (`if (repo.description)` etc.); an absent or
empty field contributes a zero result. -/
def fkmField (kws : List String) : Option String → Except String FKMResult
  | some t => findKeywordMatches kws t
  | none => Except.ok ⟨0, []⟩

/-- `SmartAnalyzer.basicAnalysis(repo)` (smart-analyzer.js:136-170):
description matches weighted ×5, README matches ×1, topic matches
(topics joined with spaces) ×3; matched keywords are concatenated in field
order and deduplicated via `new Set`; `aiSummary` starts `null`.  A regex
error from any field's search propagates (the JavaScript function
throws). -/
def basicAnalysis (kws : List String) (repo : Repo) : Except String Analyzed :=
  match fkmField kws (truthyStr repo.description) with
  | Except.error e => Except.error e
  | Except.ok d =>
    match fkmField kws (truthyStr repo.readmeContent) with
    | Except.error e => Except.error e
    | Except.ok r =>
      match fkmField kws (repo.topics.map joinSpace) with
      | Except.error e => Except.error e
      | Except.ok t =>
        Except.ok ⟨repo, d.score * 5 + r.score + t.score * 3,
                   dedupFirst (d.keywords ++ r.keywords ++ t.keywords), none⟩

/-! ### `SmartAnalyzer` construction and batch analysis -/

/-- The relevant keys of `radar.config.yml`; `none` models an absent key. -/
structure RadarConfig where
  target_languages : Option (List String) := none
  topic_keywords : Option (List String) := none
  enable_ai_summaries : Option Bool := none
  max_ai_summaries : Option Nat := none
deriving Repr

/-- The analyzer state fixed by the `SmartAnalyzer` constructor. -/
structure SmartAnalyzerState where
  topicKeywords : List String
  enableAISummaries : Bool
  maxAISummaries : Nat
deriving Repr

/-- The `SmartAnalyzer` constructor (smart-analyzer.js:59-75):
`topic_keywords || []`, `enable_ai_summaries !== false`,
`max_ai_summaries || 10` (`0` is falsy, so it also yields the default 10);
summaries are then disabled when no OpenAI API key is present. -/
def mkSmartAnalyzer (config : RadarConfig) (hasOpenAIKey : Bool) : SmartAnalyzerState :=
  { topicKeywords := config.topic_keywords.getD []
    enableAISummaries := decide (config.enable_ai_summaries ≠ some false) && hasOpenAIKey
    maxAISummaries :=
      match config.max_ai_summaries with
      | some n => if n = 0 then 10 else n
      | none => 10 }

/-- `SmartAnalyzer.analyzeSingleRepo(repo, aiSummaryCount)`
(smart-analyzer.js:111-129): after the basic analysis, a summary is
attempted only when summaries are enabled, the relevance score is
positive, and the running count is below `maxAISummaries`; a failed
generation call is caught and leaves `aiSummary` null.
`gen` models the external `generateAISummary` call. -/
def analyzeSingleRepo (st : SmartAnalyzerState)
    (gen : Repo → List String → Except String String)
    (repo : Repo) (aiSummaryCount : Nat) : Except String Analyzed :=
  match basicAnalysis st.topicKeywords repo with
  | Except.error e => Except.error e
  | Except.ok a =>
    if st.enableAISummaries && decide (0 < a.relevanceScore) &&
        decide (aiSummaryCount < st.maxAISummaries) then
      match gen repo a.matchedKeywords with
      | Except.ok s => Except.ok { a with aiSummary := some s }
      | Except.error _ => Except.ok { a with aiSummary := none }
    else
      Except.ok a

/-- `if (analyzedRepo.aiSummary) aiSummaryCount++`: JavaScript truthiness,
so an empty-string summary does not increment the counter. -/
def summaryTruthy (a : Analyzed) : Bool :=
  match a.aiSummary with
  | some s => decide (s ≠ "")
  | none => false

/-- The loop body of `SmartAnalyzer.analyzeBatch` (smart-analyzer.js:82-103)
with the running `aiSummaryCount` made explicit.  A repo whose detailed
analysis throws is retried with `basicAnalysis` (the `catch` branch); if
that throws again — which happens for the same regex error — the exception
escapes `analyzeBatch` itself. -/
def analyzeBatchGo (st : SmartAnalyzerState)
    (gen : Repo → List String → Except String String) :
    List Repo → Nat → Except String (List Analyzed)
  | [], _ => Except.ok []
  | repo :: rest, cnt =>
    match analyzeSingleRepo st gen repo cnt with
    | Except.ok a =>
      match analyzeBatchGo st gen rest (if summaryTruthy a then cnt + 1 else cnt) with
      | Except.ok tail => Except.ok (a :: tail)
      | Except.error e => Except.error e
    | Except.error _ =>
      match basicAnalysis st.topicKeywords repo with
      | Except.ok a =>
        match analyzeBatchGo st gen rest cnt with
        | Except.ok tail => Except.ok (a :: tail)
        | Except.error e => Except.error e
      | Except.error e => Except.error e

/-- `SmartAnalyzer.analyzeBatch(repos)`: the summary counter starts at 0
on every call. -/
def analyzeBatch (st : SmartAnalyzerState)
    (gen : Repo → List String → Except String String)
    (repos : List Repo) : Except String (List Analyzed) :=
  analyzeBatchGo st gen repos 0

/-! ### `ContentEnricher` -/

/-- The GitHub repository-metadata payload fields read by the enricher. -/
structure RepoMetadata where
  topics : Option (List String) := none
  created_at : Option String := none
  updated_at : Option String := none
  forks_count : Option Nat := none
  stargazers_count : Option Nat := none
  watchers_count : Option Nat := none
  open_issues_count : Option Nat := none
deriving DecidableEq, Repr

/-- `String.prototype.split` on one separator character
(`"".split('/') === ['']`). -/
def splitOnChar (sep : Char) : List Char → List (List Char)
  | [] => [[]]
  | c :: rest =>
    let r := splitOnChar sep rest
    if c = sep then [] :: r
    else
      match r with
      | h :: t => (c :: h) :: t
      | [] => [[c]]

/-- `const [owner, repoName] = repo.name.split('/')` followed by the
`!owner || !repoName` validity check (content-enricher.js:44-49); extra
components after the second are discarded by the destructuring. -/
def splitRepoName (nm : String) : Option (String × String) :=
  match splitOnChar '/' nm.toList with
  | owner :: rname :: _ =>
    if owner = [] ∨ rname = [] then none else some (owner.asString, rname.asString)
  | _ => none

/-- `x || y` on optional numbers (`0` is falsy), as in
`repoMetadata?.forks_count || repo.forks`. -/
def orFalsyNat (a b : Option Nat) : Option Nat :=
  match a with
  | some n => if n = 0 then b else some n
  | none => b

/-- `ContentEnricher.getReadmeContent` (content-enricher.js:88-105): the
decoded README body is truncated to its first 5000 characters; a payload
without content yields `''`; fetch failures are rethrown to the caller.
`fetchReadme` models the GitHub API call (with base64 decoding), returning
`none` for a payload without `content`. -/
def getReadmeContent (fetchReadme : String → String → Except String (Option String))
    (owner rname : String) : Except String String :=
  match fetchReadme owner rname with
  | Except.ok (some content) => Except.ok (content.toList.take 5000).asString
  | Except.ok none => Except.ok ""
  | Except.error e => Except.error e

/-- `ContentEnricher.enrichSingleRepo(repo)` (content-enricher.js:43-80):
an invalid `owner/name` split returns the record unchanged; any fetch
failure is caught and likewise returns the record unchanged; on success
the enrichment fields are layered onto a copy of the record.  A record
without a `name` throws (`undefined.split`), the only exception that can
escape. -/
def enrichSingleRepo (fetchReadme : String → String → Except String (Option String))
    (fetchMeta : String → String → Except String RepoMetadata)
    (repo : Repo) : Except String Repo :=
  match repo.name with
  | none => Except.error "TypeError: Cannot read properties of undefined"
  | some nm =>
    match splitRepoName nm with
    | none => Except.ok repo
    | some (owner, rname) =>
      match getReadmeContent fetchReadme owner rname with
      | Except.error _ => Except.ok repo
      | Except.ok readme =>
        match fetchMeta owner rname with
        | Except.error _ => Except.ok repo
        | Except.ok md =>
          Except.ok { repo with
                      readmeContent := some readme
                      topics := some (md.topics.getD [])
                      createdAt := md.created_at
                      updatedAt := md.updated_at
                      forksCount := orFalsyNat md.forks_count repo.forks
                      starsCount := orFalsyNat md.stargazers_count repo.stars
                      watchersCount := md.watchers_count
                      openIssuesCount := md.open_issues_count }

/-- `ContentEnricher.enrichBatch(repos)` (content-enricher.js:21-36): each
record is enriched in turn; a record whose enrichment throws is caught and
pushed unchanged, and the loop continues with the remaining records. -/
def enrichBatch (fetchReadme : String → String → Except String (Option String))
    (fetchMeta : String → String → Except String RepoMetadata) :
    List Repo → List Repo
  | [] => []
  | repo :: rest =>
    (match enrichSingleRepo fetchReadme fetchMeta repo with
     | Except.ok e => e
     | Except.error _ => repo) :: enrichBatch fetchReadme fetchMeta rest

/-! ### `LanguageFilter` -/

/-- The `LanguageFilter` constructor: targets are lowercased once. -/
def languageFilterInit (targetLanguages : List String) : List String :=
  targetLanguages.map toLowerStr

/-- `LanguageFilter.filter(repos)` (language-filter.js:20-33): an empty
target list returns the input unchanged; otherwise a record is kept when
`(repo.language || '').toLowerCase()` is included in the lowercased
targets. -/
def languageFilter (targets : List String) (repos : List Repo) : List Repo :=
  if targets = [] then repos
  else repos.filter (fun repo => toLowerStr (repo.language.getD "") ∈ targets)

/-- Construction plus filtering, as both orchestrators use it:
`new LanguageFilter(config.target_languages).filter(repos)`. -/
def languageFilterRun (targetLanguages : List String) (repos : List Repo) : List Repo :=
  languageFilter (languageFilterInit targetLanguages) repos

/-! ### The two batch orchestrators -/

/-- One batch worth of pipeline work, as both orchestrators run it:
enrichment followed by smart analysis. -/
def radarBatchStage (st : SmartAnalyzerState)
    (gen : Repo → List String → Except String String)
    (fetchReadme : String → String → Except String (Option String))
    (fetchMeta : String → String → Except String RepoMetadata)
    (batch : List Repo) : Except String (List Analyzed) :=
  analyzeBatch st gen (enrichBatch fetchReadme fetchMeta batch)

/-- Fuel-indexed slicing loop; the fuel (initially the list length, which
always suffices since each step consumes at least one element) only makes
the recursion structural. -/
def chunkListGo (n : Nat) : Nat → List Repo → List (List Repo)
  | _, [] => []
  | 0, _ :: _ => []
  | fuel + 1, x :: xs => (x :: xs).take n :: chunkListGo n fuel (xs.drop (n - 1))

/-- The batch-slicing loop `for (i = 0; i < len; i += batchSize)
batches.push(slice(i, i + batchSize))`, for a positive batch size. -/
def chunkList (n : Nat) (l : List Repo) : List (List Repo) :=
  chunkListGo n l.length l

/-- The batch loop of `PersonalizedRadar.analyzeRepos` (radar.js:144-160):
no `try`/`catch` — an exception from either stage propagates, aborting the
whole run. -/
def personalizedLoop (st : SmartAnalyzerState)
    (gen : Repo → List String → Except String String)
    (fetchReadme : String → String → Except String (Option String))
    (fetchMeta : String → String → Except String RepoMetadata) :
    List (List Repo) → Except String (List Analyzed)
  | [] => Except.ok []
  | b :: bs =>
    match radarBatchStage st gen fetchReadme fetchMeta b with
    | Except.error e => Except.error e
    | Except.ok analyzed =>
      match personalizedLoop st gen fetchReadme fetchMeta bs with
      | Except.error e => Except.error e
      | Except.ok rest => Except.ok (analyzed ++ rest)

/-- `PersonalizedRadar.analyzeRepos` on an already-filtered record list:
batches of 5. -/
def personalizedAnalyzeRepos (st : SmartAnalyzerState)
    (gen : Repo → List String → Except String String)
    (fetchReadme : String → String → Except String (Option String))
    (fetchMeta : String → String → Except String RepoMetadata)
    (filteredRepos : List Repo) : Except String (List Analyzed) :=
  personalizedLoop st gen fetchReadme fetchMeta (chunkList 5 filteredRepos)

/-- The batch loop of `StandaloneRadar.analyzeRepos`
(radar-standalone.js:120-141): each batch runs inside `try`/`catch`; a
failed batch is logged, its records are omitted, and the loop continues
with the next batch. -/
def standaloneLoop (st : SmartAnalyzerState)
    (gen : Repo → List String → Except String String)
    (fetchReadme : String → String → Except String (Option String))
    (fetchMeta : String → String → Except String RepoMetadata) :
    List (List Repo) → List Analyzed
  | [] => []
  | b :: bs =>
    match radarBatchStage st gen fetchReadme fetchMeta b with
    | Except.ok analyzed => analyzed ++ standaloneLoop st gen fetchReadme fetchMeta bs
    | Except.error _ => standaloneLoop st gen fetchReadme fetchMeta bs

/-- `StandaloneRadar.analyzeRepos` on an already-filtered record list:
batches of 3. -/
def standaloneAnalyzeRepos (st : SmartAnalyzerState)
    (gen : Repo → List String → Except String String)
    (fetchReadme : String → String → Except String (Option String))
    (fetchMeta : String → String → Except String RepoMetadata)
    (filteredRepos : List Repo) : List Analyzed :=
  standaloneLoop st gen fetchReadme fetchMeta (chunkList 3 filteredRepos)

/-- Number of records in an analysis output carrying a generated summary. -/
def countSummaries (l : List Analyzed) : Nat :=
  (l.filter (fun a => a.aiSummary.isSome)).length

/-! ### Characterisations used in theorem statements -/

/-- The per-keyword match count of the scorer: the larger of the
whole-word count and the substring count, both on the lowercased keyword
against the lowercased text. -/
def kwMaxCount (kw : String) (lowerText : List Char) : Nat :=
  max (countWord (toLowerStr kw).toList lowerText)
      (countSub (toLowerStr kw).toList lowerText)

/-- The score one text field contributes before weighting: the sum of the
per-keyword max-counts (zero for empty text, which the scorer
short-circuits). -/
def fieldScoreText (kws : List String) (text : String) : Nat :=
  if text = "" then 0
  else (kws.map (fun kw => kwMaxCount kw (toLowerStr text).toList)).sum

/-- The keywords one text field contributes, in configuration order: the
configured keywords whose max-count in that field is positive. -/
def fieldKeywordsText (kws : List String) (text : String) : List String :=
  if text = "" then []
  else kws.filter (fun kw => decide (0 < kwMaxCount kw (toLowerStr text).toList))

def optFieldScore (kws : List String) : Option String → Nat
  | some t => fieldScoreText kws t
  | none => 0

def optFieldKeywords (kws : List String) : Option String → List String
  | some t => fieldKeywordsText kws t
  | none => []

/-! ### Concrete inputs for witnesses and counterexamples -/

/-- Analyzer built from `{topic_keywords: ['ai'], max_ai_summaries: 1}`
with an OpenAI key present. -/
def stQuota1 : SmartAnalyzerState :=
  mkSmartAnalyzer { topic_keywords := some ["ai"], max_ai_summaries := some 1 } true

/-- Analyzer built from `{topic_keywords: ['c++']}` (summaries disabled
for lack of a key). -/
def stCpp : SmartAnalyzerState :=
  mkSmartAnalyzer { topic_keywords := some ["c++"] } false

/-- A generation collaborator that always succeeds. -/
def genOk : Repo → List String → Except String String :=
  fun _ _ => Except.ok "AI Summary"

/-- A README fetch that always fails (network down), so every record
degrades to its original fields. -/
def fetchFailR : String → String → Except String (Option String) :=
  fun _ _ => Except.error "getaddrinfo ENOTFOUND api.github.com"

/-- A metadata fetch that always fails. -/
def fetchFailM : String → String → Except String RepoMetadata :=
  fun _ _ => Except.error "getaddrinfo ENOTFOUND api.github.com"

/-- A README fetch that always succeeds. -/
def fetchOkR : String → String → Except String (Option String) :=
  fun _ _ => Except.ok (some "ai readme")

/-- A metadata fetch that always succeeds. -/
def fetchOkM : String → String → Except String RepoMetadata :=
  fun _ _ => Except.ok { topics := some ["ai"] }

def repoAi : Repo := { name := some "owner/repo", description := some "ai" }

def repoCpp : Repo := { name := some "owner/cpp", description := some "cpp library" }

def repoBlank : Repo := { name := some "owner/blank" }

def repoNoLang : Repo := { name := some "owner/nolang" }

def repoPy : Repo := { name := some "owner/py", language := some "Python" }

def repoRust : Repo := { name := some "owner/rs", language := some "Rust" }

def repoPy2 : Repo := { name := some "owner/py2", language := some "python" }

def repoMulti : Repo :=
  { name := some "owner/multi", description := some "rust here",
    readmeContent := some "ai", topics := some ["ai"] }

/-! ### Helper lemmas: deduplication -/

theorem mem_dedupFirstAux {x : String} :
    ∀ (l seen : List String), x ∈ dedupFirstAux seen l → x ∈ l ∧ x ∉ seen
  | [], _, h => by simp [dedupFirstAux] at h
  | y :: ys, seen, h => by
    by_cases hy : y ∈ seen
    · rw [dedupFirstAux, if_pos hy] at h
      obtain ⟨h1, h2⟩ := mem_dedupFirstAux ys seen h
      exact ⟨List.mem_cons_of_mem _ h1, h2⟩
    · rw [dedupFirstAux, if_neg hy] at h
      rcases List.mem_cons.mp h with rfl | h'
      · exact ⟨List.mem_cons_self _ _, hy⟩
      · obtain ⟨h1, h2⟩ := mem_dedupFirstAux ys (y :: seen) h'
        exact ⟨List.mem_cons_of_mem _ h1, fun hs => h2 (List.mem_cons_of_mem _ hs)⟩

theorem nodup_dedupFirstAux : ∀ (l seen : List String), (dedupFirstAux seen l).Nodup
  | [], _ => by simp [dedupFirstAux]
  | y :: ys, seen => by
    by_cases hy : y ∈ seen
    · rw [dedupFirstAux, if_pos hy]
      exact nodup_dedupFirstAux ys seen
    · rw [dedupFirstAux, if_neg hy]
      refine List.nodup_cons.mpr ⟨?_, nodup_dedupFirstAux ys (y :: seen)⟩
      intro hmem
      exact (mem_dedupFirstAux ys (y :: seen) hmem).2 (List.mem_cons_self _ _)

theorem dedupFirst_nodup (l : List String) : (dedupFirst l).Nodup :=
  nodup_dedupFirstAux l []

theorem dedupFirst_subset (l : List String) : dedupFirst l ⊆ l :=
  fun _ hx => (mem_dedupFirstAux l [] hx).1

theorem nodup_subset_length {d l : List String} (hd : d.Nodup) (hs : d ⊆ l) :
    d.length ≤ l.length := by
  calc d.length = d.toFinset.card := (List.toFinset_card_of_nodup hd).symm
    _ ≤ l.toFinset.card := Finset.card_le_card (fun x hx => by
        rw [List.mem_toFinset] at hx ⊢
        exact hs hx)
    _ ≤ l.length := l.toFinset_card_le

/-! ### Helper lemmas: regex compilation model -/

theorem rscanGo_of_literal :
    ∀ (cs : List Char), (∀ c ∈ cs, regexMetaChar c = false) →
      ∀ st : RScan, rscanGo st cs = true
  | [], _, _ => rfl
  | c :: cs, h, st => by
    have hc : regexMetaChar c = false := h c (List.mem_cons_self _ _)
    simp only [regexMetaChar, decide_eq_false_iff_not, not_or] at hc
    obtain ⟨h1, h2, h3, h4, h5, h6, h7, h8, h9, h10, h11, h12, h13, h14⟩ := hc
    have hstep : rscanStep st c = some RScan.atom := by
      rw [rscanStep.eq_def]
      rw [if_neg (fun hor => hor.elim h8 h7), if_neg h6, if_neg h5,
        if_neg (fun hor => by tauto)]
    rw [rscanGo, hstep]
    exact rscanGo_of_literal cs (fun d hd => h d (List.mem_cons_of_mem _ hd)) RScan.atom

theorem regexMetaChar_ofNat_lowercase :
    ∀ n, n < 26 → regexMetaChar (Char.ofNat (97 + n)) = false := by decide

theorem regexMetaChar_toLower {c : Char} (h : regexMetaChar c = false) :
    regexMetaChar (Char.toLower c) = false := by
  rw [Char.toLower]
  by_cases hc : c.toNat ≥ 65 ∧ c.toNat ≤ 90
  · rw [if_pos hc]
    have h26 : c.toNat - 65 < 26 := by omega
    have h97 : c.toNat + 32 = 97 + (c.toNat - 65) := by omega
    rw [h97]
    exact regexMetaChar_ofNat_lowercase _ h26
  · rw [if_neg hc]
    exact h

theorem toLowerStr_literal {s : String} (h : regexLiteralStr s = true) :
    regexLiteralStr (toLowerStr s) = true := by
  simp only [regexLiteralStr, toLowerStr, List.toList_asString, List.all_eq_true,
    Bool.not_eq_true', List.mem_map, forall_exists_index, and_imp] at h ⊢
  intro c d hd hdc
  subst hdc
  exact regexMetaChar_toLower (h d hd)

theorem toLowerStr_eq_empty {t : String} (h : toLowerStr t = "") : t = "" := by
  have h2 : (toLowerStr t).toList = [] := by rw [h]; rfl
  rw [toLowerStr, List.toList_asString] at h2
  have h3 : t.toList = [] := by
    cases hl : t.toList with
    | nil => rfl
    | cons c cs => rw [hl] at h2; cases h2
  have h4 := congrArg List.asString h3
  rw [String.asString_toList] at h4
  exact h4.trans String.asString_nil

theorem regexCompiles_of_literal {s : String} (h : regexLiteralStr s = true) :
    regexCompiles s = true := by
  simp only [regexLiteralStr, List.all_eq_true, Bool.not_eq_true'] at h
  exact rscanGo_of_literal s.toList h RScan.noAtom

/-! ### Helper lemmas: scorer characterisation -/

theorem kwMaxCount_eq (kw : String) (lt : List Char) :
    max (countWord (toLowerStr kw).toList lt) (countSub (toLowerStr kw).toList lt) =
      kwMaxCount kw lt := rfl

theorem fkmLoop_total (lt : List Char) :
    ∀ (kws : List String), (∀ kw ∈ kws, regexCompiles (toLowerStr kw) = true) →
      fkmLoop lt kws =
        Except.ok ⟨(kws.map (fun kw => kwMaxCount kw lt)).sum,
                   kws.filter (fun kw => decide (0 < kwMaxCount kw lt))⟩
  | [], _ => by simp [fkmLoop]
  | kw :: rest, h => by
    have hc := h kw (List.mem_cons_self _ _)
    rw [fkmLoop, if_pos hc,
      fkmLoop_total lt rest (fun d hd => h d (List.mem_cons_of_mem _ hd))]
    simp only [List.map_cons, List.sum_cons, List.filter_cons]
    simp only [kwMaxCount_eq]
    by_cases hm : 0 < kwMaxCount kw lt
    · simp only [hm, if_true, decide_true_eq_true, List.singleton_append,
        decide_eq_true_eq, if_pos hm]
    · simp [hm]

theorem fkmLoop_compiles (lt : List Char) :
    ∀ (kws : List String) (r : FKMResult), fkmLoop lt kws = Except.ok r →
      ∀ kw ∈ kws, regexCompiles (toLowerStr kw) = true
  | [], _, _ => by
    intro kw hkw
    cases hkw
  | kw :: rest, r, h => by
    rw [fkmLoop] at h
    by_cases hc : regexCompiles (toLowerStr kw) = true
    · intro d hd
      rcases List.mem_cons.mp hd with rfl | hd'
      · exact hc
      · rw [if_pos hc] at h
        cases hrec : fkmLoop lt rest with
        | error e => rw [hrec] at h; cases h
        | ok rr => exact fkmLoop_compiles lt rest rr hrec d hd'
    · rw [if_neg hc] at h
      cases h

theorem fkmLoop_ok_inv {lt : List Char} {kws : List String} {r : FKMResult}
    (h : fkmLoop lt kws = Except.ok r) :
    r.score = (kws.map (fun kw => kwMaxCount kw lt)).sum ∧
    r.keywords = kws.filter (fun kw => decide (0 < kwMaxCount kw lt)) := by
  rw [fkmLoop_total lt kws (fkmLoop_compiles lt kws r h)] at h
  cases h
  exact ⟨rfl, rfl⟩

theorem findKeywordMatches_ok_inv {kws : List String} {text : String} {r : FKMResult}
    (h : findKeywordMatches kws text = Except.ok r) :
    r.score = fieldScoreText kws text ∧ r.keywords = fieldKeywordsText kws text := by
  rw [findKeywordMatches] at h
  by_cases he : text = "" ∨ kws = []
  · rw [if_pos he] at h
    cases h
    rcases he with he | he
    · simp [fieldScoreText, fieldKeywordsText, he]
    · subst he
      by_cases ht : text = "" <;> simp [fieldScoreText, fieldKeywordsText, ht]
  · rw [if_neg he] at h
    push_neg at he
    obtain ⟨hs, hk⟩ := fkmLoop_ok_inv h
    simp [fieldScoreText, fieldKeywordsText, he.1, hs, hk]

theorem fkmField_ok_inv {kws : List String} {o : Option String} {r : FKMResult}
    (h : fkmField kws o = Except.ok r) :
    r.score = optFieldScore kws o ∧ r.keywords = optFieldKeywords kws o := by
  cases o with
  | none =>
    rw [fkmField] at h
    cases h
    exact ⟨rfl, rfl⟩
  | some t =>
    rw [fkmField] at h
    exact findKeywordMatches_ok_inv h

theorem basicAnalysis_ok_inv {kws : List String} {repo : Repo} {a : Analyzed}
    (h : basicAnalysis kws repo = Except.ok a) :
    a.repo = repo ∧ a.aiSummary = none ∧
    a.relevanceScore =
      optFieldScore kws (truthyStr repo.description) * 5 +
      optFieldScore kws (truthyStr repo.readmeContent) +
      optFieldScore kws (repo.topics.map joinSpace) * 3 ∧
    a.matchedKeywords =
      dedupFirst (optFieldKeywords kws (truthyStr repo.description) ++
                  optFieldKeywords kws (truthyStr repo.readmeContent) ++
                  optFieldKeywords kws (repo.topics.map joinSpace)) := by
  rw [basicAnalysis] at h
  cases hd : fkmField kws (truthyStr repo.description) with
  | error e => rw [hd] at h; cases h
  | ok d =>
    rw [hd] at h
    cases hr : fkmField kws (truthyStr repo.readmeContent) with
    | error e => rw [hr] at h; cases h
    | ok r =>
      rw [hr] at h
      cases ht : fkmField kws (repo.topics.map joinSpace) with
      | error e => rw [ht] at h; cases h
      | ok t =>
        rw [ht] at h
        cases h
        obtain ⟨hd1, hd2⟩ := fkmField_ok_inv hd
        obtain ⟨hr1, hr2⟩ := fkmField_ok_inv hr
        obtain ⟨ht1, ht2⟩ := fkmField_ok_inv ht
        exact ⟨rfl, rfl, by rw [hd1, hr1, ht1], by rw [hd2, hr2, ht2]⟩

theorem optFieldKeywords_subset (kws : List String) (o : Option String) :
    optFieldKeywords kws o ⊆ kws := by
  cases o with
  | none =>
    intro x hx
    simp [optFieldKeywords] at hx
  | some t =>
    simp only [optFieldKeywords, fieldKeywordsText]
    by_cases ht : t = ""
    · intro x hx
      simp [ht] at hx
    · rw [if_neg ht]
      exact List.filter_subset' _

theorem analyzeSingleRepo_zero {st : SmartAnalyzerState}
    {gen : Repo → List String → Except String String} {repo : Repo} {cnt : Nat}
    {a : Analyzed} (h : analyzeSingleRepo st gen repo cnt = Except.ok a)
    (hz : a.relevanceScore = 0) : a.aiSummary = none := by
  rw [analyzeSingleRepo] at h
  split at h
  · cases h
  next a0 hb =>
    split at h
    next hcond =>
      simp only [Bool.and_eq_true, decide_eq_true_eq] at hcond
      split at h
      · cases h
        simp only at hz
        exact absurd hcond.1.2 (by omega)
      · cases h
        rfl
    next hcond =>
      cases h
      exact (basicAnalysis_ok_inv hb).2.1

theorem analyzeBatchGo_zero_no_summary (st : SmartAnalyzerState)
    (gen : Repo → List String → Except String String) :
    ∀ (repos : List Repo) (cnt : Nat) (out : List Analyzed),
      analyzeBatchGo st gen repos cnt = Except.ok out →
      ∀ a ∈ out, a.relevanceScore = 0 → a.aiSummary = none
  | [], _, out, h => by
    rw [analyzeBatchGo] at h
    cases h
    intro a ha
    cases ha
  | repo :: rest, cnt, out, h => by
    rw [analyzeBatchGo] at h
    split at h
    next a0 hs =>
      split at h
      next tail hrec =>
        cases h
        intro a ha hscore
        rcases List.mem_cons.mp ha with rfl | ha'
        · exact analyzeSingleRepo_zero hs hscore
        · exact analyzeBatchGo_zero_no_summary st gen rest _ tail hrec a ha' hscore
      next => cases h
    next =>
      split at h
      next a0 hb =>
        split at h
        next tail hrec =>
          cases h
          intro a ha hscore
          rcases List.mem_cons.mp ha with rfl | ha'
          · exact (basicAnalysis_ok_inv hb).2.1
          · exact analyzeBatchGo_zero_no_summary st gen rest cnt tail hrec a ha' hscore
        next => cases h
      next => cases h

/-! ### Claim theorems -/

/-- C2: for every record and keyword configuration, the matched-keyword
set returned by the scorer contains no duplicates, has size at most the
number of configured keywords, and equals the first-occurrence
deduplication of the per-field matched lists concatenated in field order
(description, README, topics), each field listing its matching keywords in
configuration order — so the first field in which a keyword matched
determines its position and cross-field duplicates collapse to the first
occurrence. -/
theorem claim2_matched_keywords (kws : List String) (repo : Repo) (a : Analyzed)
    (h : basicAnalysis kws repo = Except.ok a) :
    a.matchedKeywords.Nodup ∧
    a.matchedKeywords.length ≤ kws.length ∧
    a.matchedKeywords =
      dedupFirst (optFieldKeywords kws (truthyStr repo.description) ++
                  optFieldKeywords kws (truthyStr repo.readmeContent) ++
                  optFieldKeywords kws (repo.topics.map joinSpace)) := by
  obtain ⟨-, -, -, hmk⟩ := basicAnalysis_ok_inv h
  rw [hmk]
  refine ⟨dedupFirst_nodup _, ?_, rfl⟩
  apply nodup_subset_length (dedupFirst_nodup _)
  intro x hx
  have hx' := dedupFirst_subset _ hx
  rcases List.mem_append.mp hx' with hx'' | hx''
  · rcases List.mem_append.mp hx'' with hx3 | hx3
    · exact optFieldKeywords_subset kws _ hx3
    · exact optFieldKeywords_subset kws _ hx3
  · exact optFieldKeywords_subset kws _ hx''

/-- C2 witness: keywords `["ai", "rust"]` on a record whose description
matches only `rust`, while README and topics match `ai`: the matched set
is `["rust", "ai"]` — field order first, no duplicate `ai`. -/
theorem claim2_witness :
    basicAnalysis ["ai", "rust"] repoMulti =
      Except.ok ⟨repoMulti, 9, ["rust", "ai"], none⟩ ∧
    (["rust", "ai"] : List String).Nodup ∧
    (["rust", "ai"] : List String).length ≤ (["ai", "rust"] : List String).length ∧
    ["rust", "ai"] =
      dedupFirst (optFieldKeywords ["ai", "rust"] (truthyStr repoMulti.description) ++
                  optFieldKeywords ["ai", "rust"] (truthyStr repoMulti.readmeContent) ++
                  optFieldKeywords ["ai", "rust"] (repoMulti.topics.map joinSpace)) :=
  ⟨by decide,
   (claim2_matched_keywords ["ai", "rust"] repoMulti ⟨repoMulti, 9, ["rust", "ai"], none⟩
      (by decide))⟩

/-- C3: for every keyword and text field, the per-field match count used
by the scorer is the maximum of the whole-word count and the substring
count — and strictly less than their sum whenever both are positive
(never the sum). Stated for keywords without regex metacharacters, on
which the interpolated pattern denotes the keyword literally. -/
theorem claim3_count_is_max_not_sum (kw text : String)
    (hkw : regexLiteralStr kw = true) (ht : text ≠ "") :
    findKeywordMatches [kw] text =
      Except.ok ⟨max (countWord (toLowerStr kw).toList (toLowerStr text).toList)
                     (countSub (toLowerStr kw).toList (toLowerStr text).toList),
                 if 0 < max (countWord (toLowerStr kw).toList (toLowerStr text).toList)
                            (countSub (toLowerStr kw).toList (toLowerStr text).toList)
                 then [kw] else []⟩ ∧
    (0 < countWord (toLowerStr kw).toList (toLowerStr text).toList →
     0 < countSub (toLowerStr kw).toList (toLowerStr text).toList →
     max (countWord (toLowerStr kw).toList (toLowerStr text).toList)
         (countSub (toLowerStr kw).toList (toLowerStr text).toList) <
       countWord (toLowerStr kw).toList (toLowerStr text).toList +
         countSub (toLowerStr kw).toList (toLowerStr text).toList) := by
  constructor
  · rw [findKeywordMatches, if_neg (by simp [ht])]
    rw [fkmLoop_total _ [kw] ?_]
    · simp only [List.map_cons, List.map_nil, List.sum_cons, List.sum_nil,
        List.filter_cons, List.filter_nil, Nat.add_zero, decide_eq_true_eq, kwMaxCount]
    · intro d hd
      rcases List.mem_cons.mp hd with rfl | hd'
      · exact regexCompiles_of_literal (toLowerStr_literal hkw)
      · cases hd'
  · intro h1 h2
    rcases Nat.le_total (countWord (toLowerStr kw).toList (toLowerStr text).toList)
        (countSub (toLowerStr kw).toList (toLowerStr text).toList) with hle | hle
    · rw [Nat.max_eq_right hle]
      omega
    · rw [Nat.max_eq_left hle]
      omega

/-- C3 witness at keyword `ai`, text `"ai ai"`: whole-word count 2,
substring count 2, scorer count `max 2 2 = 2 < 4 = 2 + 2`. -/
theorem claim3_witness :
    regexLiteralStr "ai" = true ∧ ("ai ai" : String) ≠ "" ∧
    findKeywordMatches ["ai"] "ai ai" = Except.ok ⟨2, ["ai"]⟩ ∧
    countWord (toLowerStr "ai").toList (toLowerStr "ai ai").toList = 2 ∧
    countSub (toLowerStr "ai").toList (toLowerStr "ai ai").toList = 2 ∧
    (2 : Nat) < 2 + 2 := by
  refine ⟨by decide, by decide, ?_, by decide, by decide, by decide⟩
  have h := (claim3_count_is_max_not_sum "ai" "ai ai" (by decide) (by decide)).1
  rw [h]
  decide

/-- C4: the total relevance score is 5 × the description match count plus
1 × the README match count plus 3 × the topic-tags match count, each field
count being the sum of the per-keyword max-counts; in particular keywords
`["AI"]` with description `"An AI agent framework"`, no README and no
topics score 5 with matched keywords `["AI"]`. -/
theorem claim4_weighted_score_formula :
    (∀ (kws : List String) (repo : Repo) (a : Analyzed),
        basicAnalysis kws repo = Except.ok a →
        a.relevanceScore =
          optFieldScore kws (truthyStr repo.description) * 5 +
          optFieldScore kws (truthyStr repo.readmeContent) +
          optFieldScore kws (repo.topics.map joinSpace) * 3) ∧
    basicAnalysis ["AI"] { description := some "An AI agent framework" } =
      Except.ok ⟨{ description := some "An AI agent framework" }, 5, ["AI"], none⟩ :=
  ⟨fun _ _ _ h => (basicAnalysis_ok_inv h).2.2.1, by decide⟩

/-- C4 witness: the formula instantiated on the scenario record. -/
theorem claim4_witness :
    (⟨{ description := some "An AI agent framework" }, 5, ["AI"], none⟩ : Analyzed).relevanceScore =
      optFieldScore ["AI"] (truthyStr (Repo.description { description := some "An AI agent framework" })) * 5 +
      optFieldScore ["AI"] (truthyStr (Repo.readmeContent { description := some "An AI agent framework" })) +
      optFieldScore ["AI"] ((Repo.topics { description := some "An AI agent framework" }).map joinSpace) * 3 :=
  claim4_weighted_score_formula.1 ["AI"] { description := some "An AI agent framework" }
    ⟨{ description := some "An AI agent framework" }, 5, ["AI"], none⟩
    claim4_weighted_score_formula.2

/-- C5: a record whose relevance score is 0 never carries a generated
summary in the batch output, whatever the quota, the configuration and
the generation collaborator. -/
theorem claim5_zero_score_no_summary (st : SmartAnalyzerState)
    (gen : Repo → List String → Except String String) (repos : List Repo)
    (out : List Analyzed) (h : analyzeBatch st gen repos = Except.ok out) :
    ∀ a ∈ out, a.relevanceScore = 0 → a.aiSummary = none :=
  analyzeBatchGo_zero_no_summary st gen repos 0 out h

/-- C5 witness: summaries enabled, quota open, generation succeeding —
the zero-scoring record still gets no summary. -/
theorem claim5_witness :
    analyzeBatch stQuota1 genOk [repoBlank] = Except.ok [⟨repoBlank, 0, [], none⟩] ∧
    (⟨repoBlank, 0, [], none⟩ : Analyzed) ∈ [(⟨repoBlank, 0, [], none⟩ : Analyzed)] ∧
    (⟨repoBlank, 0, [], none⟩ : Analyzed).relevanceScore = 0 ∧
    (⟨repoBlank, 0, [], none⟩ : Analyzed).aiSummary = none :=
  ⟨by decide, by decide, by decide,
   claim5_zero_score_no_summary stQuota1 genOk [repoBlank]
     [⟨repoBlank, 0, [], none⟩] (by decide) ⟨repoBlank, 0, [], none⟩ (by decide) (by decide)⟩

/-- C9: the relevance score and matched-keyword set are deterministic
functions of the record and the keyword configuration — two analyses of
the same input agree — and the score is a non-negative integer. -/
theorem claim9_score_deterministic_nonneg (kws : List String) (repo : Repo)
    (a b : Analyzed) (ha : basicAnalysis kws repo = Except.ok a)
    (hb : basicAnalysis kws repo = Except.ok b) :
    a.relevanceScore = b.relevanceScore ∧ a.matchedKeywords = b.matchedKeywords ∧
    0 ≤ (a.relevanceScore : Int) := by
  rw [ha] at hb
  cases hb
  exact ⟨rfl, rfl, Int.natCast_nonneg _⟩

/-- C10: keyword matching interpolates the configured keyword into the
regular expression unescaped, so totality is guaranteed only for keywords
without regex metacharacters: metacharacter-free keyword lists always
score to a result, while for the keyword list `["c++"]` scoring any
non-empty text throws a `SyntaxError` instead of returning a score. -/
theorem claim10_regex_totality :
    (∀ (kws : List String) (text : String),
        (∀ kw ∈ kws, regexLiteralStr kw = true) →
        ∃ r, findKeywordMatches kws text = Except.ok r) ∧
    (∀ text : String, text ≠ "" →
        findKeywordMatches ["c++"] text =
          Except.error "SyntaxError: Invalid regular expression") := by
  constructor
  · intro kws text h
    rw [findKeywordMatches]
    by_cases he : text = "" ∨ kws = []
    · rw [if_pos he]
      exact ⟨⟨0, []⟩, rfl⟩
    · rw [if_neg he]
      exact ⟨_, fkmLoop_total _ kws
        (fun kw hkw => regexCompiles_of_literal (toLowerStr_literal (h kw hkw)))⟩
  · intro text ht
    rw [findKeywordMatches, if_neg (by simp [ht]), fkmLoop,
      if_neg (by decide : ¬ regexCompiles (toLowerStr "c++") = true)]

/-- C10 witness: the literal list `["ai"]` scores `"x"` to a result;
`["c++"]` throws on the non-empty text `"c"`. -/
theorem claim10_witness :
    (∀ kw ∈ (["ai"] : List String), regexLiteralStr kw = true) ∧
    (∃ r, findKeywordMatches ["ai"] "x" = Except.ok r) ∧
    ("c" : String) ≠ "" ∧
    findKeywordMatches ["c++"] "c" =
      Except.error "SyntaxError: Invalid regular expression" :=
  ⟨by decide, claim10_regex_totality.1 ["ai"] "x" (by decide), by decide,
   claim10_regex_totality.2 "c" (by decide)⟩

/-- C6 counterexample: with the non-empty configured target-language set
`[""]`, the record `repoNoLang`, whose language tag is missing, is kept by
the filter — the claim requires a missing language tag to be treated as
non-matching, i.e. the record to be excluded. -/
theorem claim6_counterexample :
    ([""] : List String) ≠ [] ∧ repoNoLang.language = none ∧
    languageFilterRun [""] [repoNoLang] = [repoNoLang] :=
  ⟨by decide, rfl, by decide⟩

/-- C6 amended: the empty target set leaves the input unchanged; a
non-empty target set all of whose identifiers are non-empty keeps exactly
the records whose language tag is present and, compared lowercased,
belongs to the target set — a record with a missing tag is then excluded.
(The code coalesces a missing tag to `''`, so a configured empty-string
identifier would match tag-less records, as the counterexample shows.) -/
theorem claim6_filter_amended (targetLanguages : List String) (repos : List Repo) :
    (targetLanguages = [] → languageFilterRun targetLanguages repos = repos) ∧
    (targetLanguages ≠ [] → (∀ t ∈ targetLanguages, t ≠ "") →
      languageFilterRun targetLanguages repos =
        repos.filter (fun r =>
          match r.language with
          | none => false
          | some l => decide (toLowerStr l ∈ targetLanguages.map toLowerStr))) := by
  constructor
  · intro he
    subst he
    rfl
  · intro hne hnon
    rw [languageFilterRun, languageFilter,
      if_neg (by simpa [languageFilterInit] using hne)]
    apply List.filter_congr
    intro r _
    cases hl : r.language with
    | none =>
      simp only [hl, Option.getD_none]
      refine decide_eq_false ?_
      intro hmem
      rw [languageFilterInit] at hmem
      obtain ⟨t, htl, hteq⟩ := List.mem_map.mp hmem
      exact hnon t htl (toLowerStr_eq_empty hteq)
    | some l =>
      simp only [hl, Option.getD_some, languageFilterInit]

/-- C6 witness: targets `["Python"]` keep both `Python`- and
`python`-tagged records and drop the `Rust` one; the empty target set is
the identity. -/
theorem claim6_witness :
    languageFilterRun ["Python"] [repoPy, repoRust, repoPy2] =
      [repoPy, repoRust, repoPy2].filter (fun r =>
        match r.language with
        | none => false
        | some l => decide (toLowerStr l ∈ (["Python"] : List String).map toLowerStr)) ∧
    languageFilterRun [] [repoPy, repoRust, repoPy2] = [repoPy, repoRust, repoPy2] ∧
    languageFilterRun ["Python"] [repoPy, repoRust, repoPy2] = [repoPy, repoPy2] :=
  ⟨(claim6_filter_amended ["Python"] [repoPy, repoRust, repoPy2]).2 (by decide) (by decide),
   (claim6_filter_amended [] [repoPy, repoRust, repoPy2]).1 rfl,
   by decide⟩

/-- C7 counterexample: with keyword configuration `["c++"]` the first
batch's analysis throws a regex `SyntaxError`; the second batch would
succeed, yet `PersonalizedRadar`'s batch loop aborts the whole run with
the exception instead of omitting the failed batch's records and
proceeding to the next batch. -/
theorem claim7_counterexample :
    radarBatchStage stCpp genOk fetchFailR fetchFailM [repoCpp] =
      Except.error "SyntaxError: Invalid regular expression" ∧
    radarBatchStage stCpp genOk fetchFailR fetchFailM [repoBlank] =
      Except.ok [⟨repoBlank, 0, [], none⟩] ∧
    personalizedLoop stCpp genOk fetchFailR fetchFailM [[repoCpp], [repoBlank]] =
      Except.error "SyntaxError: Invalid regular expression" := by
  refine ⟨by decide, by decide, by decide⟩

/-- C7 amended: when a batch's processing stage throws, the standalone
orchestrator omits that batch's records and continues with the remaining
batches (appending batch results in order when the stage succeeds), while
the `PersonalizedRadar` orchestrator has no handler: the first failing
batch aborts the whole run with that exception. -/
theorem claim7_batch_failure_amended (st : SmartAnalyzerState)
    (gen : Repo → List String → Except String String)
    (fetchReadme : String → String → Except String (Option String))
    (fetchMeta : String → String → Except String RepoMetadata)
    (b : List Repo) (bs : List (List Repo)) :
    (∀ e, radarBatchStage st gen fetchReadme fetchMeta b = Except.error e →
      standaloneLoop st gen fetchReadme fetchMeta (b :: bs) =
        standaloneLoop st gen fetchReadme fetchMeta bs ∧
      personalizedLoop st gen fetchReadme fetchMeta (b :: bs) = Except.error e) ∧
    (∀ rs, radarBatchStage st gen fetchReadme fetchMeta b = Except.ok rs →
      standaloneLoop st gen fetchReadme fetchMeta (b :: bs) =
        rs ++ standaloneLoop st gen fetchReadme fetchMeta bs) := by
  refine ⟨fun e he => ⟨?_, ?_⟩, fun rs hrs => ?_⟩
  · rw [standaloneLoop, he]
  · rw [personalizedLoop, he]
  · rw [standaloneLoop, hrs]

/-- C7 witness: the amended behaviour at the counterexample's batches. -/
theorem claim7_witness :
    standaloneLoop stCpp genOk fetchFailR fetchFailM [[repoCpp], [repoBlank]] =
      standaloneLoop stCpp genOk fetchFailR fetchFailM [[repoBlank]] ∧
    personalizedLoop stCpp genOk fetchFailR fetchFailM [[repoCpp], [repoBlank]] =
      Except.error "SyntaxError: Invalid regular expression" :=
  (claim7_batch_failure_amended stCpp genOk fetchFailR fetchFailM [repoCpp]
      [[repoBlank]]).1 "SyntaxError: Invalid regular expression" (by decide)

/-- C8: batch enrichment is pointwise — the output has the same length
and order as the input and each output record is a function of its own
input record only, so one record's failure cannot block the others; a
record whose enrichment throws is pushed through unchanged; and a record
whose README or metadata fetch fails degrades to exactly its original
fields (enrichment-added fields left as they were, i.e. absent). -/
theorem claim8_enrich_isolation
    (fetchReadme : String → String → Except String (Option String))
    (fetchMeta : String → String → Except String RepoMetadata)
    (repos : List Repo) :
    enrichBatch fetchReadme fetchMeta repos =
      repos.map (fun r =>
        match enrichSingleRepo fetchReadme fetchMeta r with
        | Except.ok e => e
        | Except.error _ => r) ∧
    (enrichBatch fetchReadme fetchMeta repos).length = repos.length ∧
    (∀ (r : Repo) (nm owner rname e : String), r.name = some nm →
      splitRepoName nm = some (owner, rname) →
      fetchReadme owner rname = Except.error e →
      enrichSingleRepo fetchReadme fetchMeta r = Except.ok r) ∧
    (∀ (r : Repo) (nm owner rname e : String) (content : Option String),
      r.name = some nm → splitRepoName nm = some (owner, rname) →
      fetchReadme owner rname = Except.ok content →
      fetchMeta owner rname = Except.error e →
      enrichSingleRepo fetchReadme fetchMeta r = Except.ok r) := by
  have hmap : ∀ rs : List Repo, enrichBatch fetchReadme fetchMeta rs =
      rs.map (fun r =>
        match enrichSingleRepo fetchReadme fetchMeta r with
        | Except.ok e => e
        | Except.error _ => r) := by
    intro rs
    induction rs with
    | nil => rfl
    | cons r rest ih => rw [enrichBatch, List.map_cons, ih]
  refine ⟨hmap repos, by rw [hmap repos, List.length_map], ?_, ?_⟩
  · intro r nm owner rname e hn hs hf
    rw [enrichSingleRepo, hn]
    simp only [hs, getReadmeContent, hf]
  · intro r nm owner rname e content hn hs hf hm
    rw [enrichSingleRepo, hn]
    simp only [hs, getReadmeContent, hf, hm]
    cases content <;> rfl

/-- C8 witness: with the network down both records pass through unchanged
and the failing record keeps exactly its original fields. -/
theorem claim8_witness :
    enrichBatch fetchFailR fetchFailM [repoAi, repoBlank] = [repoAi, repoBlank] ∧
    repoAi.name = some "owner/repo" ∧
    splitRepoName "owner/repo" = some ("owner", "repo") ∧
    enrichSingleRepo fetchFailR fetchFailM repoAi = Except.ok repoAi :=
  ⟨by decide, rfl, by decide,
   (claim8_enrich_isolation fetchFailR fetchFailM [repoAi]).2.2.1 repoAi "owner/repo"
     "owner" "repo" "getaddrinfo ENOTFOUND api.github.com" rfl (by decide) rfl⟩

/-- C1 (code-bug exhibit): `analyzeBatch` re-initialises its summary
counter on every call and the orchestrators call it once per batch, so
the quota bounds each batch separately instead of the whole run: with
`max_ai_summaries = 1`, six relevant records processed in batches of five
receive two summaries in a single `PersonalizedRadar` run — the run-wide
summary count exceeds the configured quota. -/
theorem claim1_run_quota_violated :
    stQuota1.maxAISummaries = 1 ∧
    (personalizedAnalyzeRepos stQuota1 genOk fetchFailR fetchFailM
        (List.replicate 6 repoAi)).map countSummaries = Except.ok 2 := by
  refine ⟨by decide, by decide⟩

/-- C9 witness: scoring `repoAi` twice with keywords `["ai"]`. -/
theorem claim9_witness :
    basicAnalysis ["ai"] repoAi = Except.ok ⟨repoAi, 5, ["ai"], none⟩ ∧
    ((⟨repoAi, 5, ["ai"], none⟩ : Analyzed).relevanceScore =
        (⟨repoAi, 5, ["ai"], none⟩ : Analyzed).relevanceScore ∧
      (⟨repoAi, 5, ["ai"], none⟩ : Analyzed).matchedKeywords =
        (⟨repoAi, 5, ["ai"], none⟩ : Analyzed).matchedKeywords ∧
      0 ≤ ((⟨repoAi, 5, ["ai"], none⟩ : Analyzed).relevanceScore : Int)) :=
  ⟨by decide,
   claim9_score_deterministic_nonneg ["ai"] repoAi _ _ (by decide) (by decide)⟩

end Radar
